import Mathlib

/-!
Shallow embedding of the message-delivery-confirmation subsystem of
`ws4m.py`: the `AckTracker` class (pending-message table, ack/nak event
classification, status queries, timeout sweep), the SNR statistics
tracker (`update_snr_stats`), the fan-out target resolution and batch
classification inside `send_meshtastic_message`, and the retry-timer
logic of the main loop in `run_weather_station`.

Python floats (timestamps, SNR values) are modelled as exact rationals;
Python dicts are modelled as insertion-ordered association lists, which
matches dict iteration order and key-update-in-place semantics.
-/

namespace Ws4m

/-- Observable status of a tracked message, as returned by
`AckTracker.get_status`: the strings `ack`, `nak`, `impl_ack`,
`pending`, `unknown` of the source. -/
inductive Status where
  | ack
  | nak
  | implAck
  | pending
  | unknown
deriving DecidableEq

/-- One value of the `AckTracker.pending` dict: the record built by
`register_message` and mutated by `on_ack_nak`. -/
structure MsgInfo where
  node_name : String
  ack_received : Bool
  nak_received : Bool
  impl_ack_received : Bool
  timestamp : ℚ
  snr : Option ℚ
deriving DecidableEq

/-- The `AckTracker.pending` dict `{message_id: info}`, as an
insertion-ordered association list with unique keys. -/
abbrev Tracker := List (Nat × MsgInfo)

/-- Dict lookup `self.pending[id]` / `id in self.pending`. -/
def lookupId : Tracker → Nat → Option MsgInfo
  | [], _ => none
  | (k, v) :: rest, id => if k = id then some v else lookupId rest id

/-- Dict assignment `self.pending[k] = v`: replaces the value in place
when the key exists (keeping its position), appends otherwise. -/
def dictSet (tr : Tracker) (k : Nat) (v : MsgInfo) : Tracker :=
  if (lookupId tr k).isSome then
    tr.map (fun e => if e.1 = k then (k, v) else e)
  else
    tr ++ [(k, v)]

/-- `AckTracker.register_message(message_id, node_name, snr)` at clock
time `t`: inserts a fresh entry with all flags cleared. -/
def register_message (message_id : Nat) (node_name : String) (snr : Option ℚ)
    (t : ℚ) (tr : Tracker) : Tracker :=
  dictSet tr message_id
    { node_name := node_name
      ack_received := false
      nak_received := false
      impl_ack_received := false
      timestamp := t
      snr := snr }

/-- The fields of an ack/nak packet that `on_ack_nak` reads after
parsing (dictionary format): `decoded.requestId`, the packet's own
`id` (the fallback when `requestId` is absent or falsy), the routing
`errorReason` (defaulting to the string `NONE`), and the `from`
node number. -/
structure Packet where
  requestId : Option Nat
  packetId : Option Nat
  errorReason : String
  fromNode : Option Nat
deriving DecidableEq

/-- The effective request id computed by `on_ack_nak`:
`request_id = packet.get('decoded', {}).get('requestId')`, then
`if not request_id: request_id = packet.get('id')` — a missing or
zero (falsy) `requestId` falls back to the packet's own id. -/
def effectiveId (p : Packet) : Option Nat :=
  match p.requestId with
  | some n => if n = 0 then p.packetId else some n
  | none => p.packetId

/-- `AckTracker.on_ack_nak(packet)` with the local node number
`localNum` (`meshtastic_interface.localNode.nodeNum`, `None` when
unavailable): ignores the event when the effective id is falsy or not
tracked; otherwise sets `nak_received` when `errorReason != 'NONE'`,
`impl_ack_received` when `from_node == local_num`, and `ack_received`
otherwise. The deferred confirmation send scheduled on a real ack is
transport I/O and does not touch the pending table. -/
def on_ack_nak (localNum : Option Nat) (p : Packet) (tr : Tracker) : Tracker :=
  match effectiveId p with
  | none => tr
  | some r =>
    if r = 0 then tr
    else
      match lookupId tr r with
      | none => tr
      | some info =>
        let info' :=
          if p.errorReason ≠ "NONE" then
            { info with nak_received := true }
          else if p.fromNode = localNum then
            { info with impl_ack_received := true }
          else
            { info with ack_received := true }
        dictSet tr r info'

/-- `AckTracker.get_status(message_id)`: `unknown` when untracked, else
the first set flag in priority order ack, nak, impl_ack, else pending. -/
def get_status (tr : Tracker) (message_id : Nat) : Status :=
  match lookupId tr message_id with
  | none => Status.unknown
  | some info =>
    if info.ack_received then Status.ack
    else if info.nak_received then Status.nak
    else if info.impl_ack_received then Status.implAck
    else Status.pending

/-- `AckTracker.cleanup_old(timeout)` at clock time `now`: collects the
ids with `current_time - info['timestamp'] > timeout` (no state check)
and deletes each collected id from the dict. -/
def cleanup_old (timeout : ℚ) (now : ℚ) (tr : Tracker) : Tracker :=
  let expired := (tr.filter (fun e => now - e.2.timestamp > timeout)).map (fun e => e.1)
  tr.filter (fun e => e.1 ∉ expired)

/-- One value of the `SNR_STATS` dict for a node: min, max, running
average, sample count, and the last up-to-100 samples. -/
structure SnrStats where
  min : ℚ
  max : ℚ
  avg : ℚ
  count : Nat
  recent : List ℚ
deriving DecidableEq

/-- The `SNR_STATS` dict `{node_name: stats}`, insertion-ordered. -/
abbrev SnrMap := List (String × SnrStats)

/-- Dict lookup `SNR_STATS[name]` / `name in SNR_STATS`. -/
def lookupSnr : SnrMap → String → Option SnrStats
  | [], _ => none
  | (k, v) :: rest, name => if k = name then some v else lookupSnr rest name

/-- Dict value update `SNR_STATS[name] = v` for an existing key:
replaces the value in place. -/
def setSnr (m : SnrMap) (name : String) (v : SnrStats) : SnrMap :=
  m.map (fun e => if e.1 = name then (name, v) else e)

/-- The `else` branch of `update_snr_stats`: min/max update, running
average `(avg*count + s)/(count+1)`, count increment, append to
`recent` and `pop(0)` when its length exceeds 100. -/
def stepStats (st : SnrStats) (s : ℚ) : SnrStats :=
  let r := st.recent ++ [s]
  { min := Min.min st.min s
    max := Max.max st.max s
    avg := (st.avg * st.count + s) / (st.count + 1)
    count := st.count + 1
    recent := if 100 < r.length then r.tail else r }

/-- `update_snr_stats(node_name, snr)`: returns the updated `SNR_STATS`
table and whether `save_snr_stats()` was triggered (count divisible by
10 after the update). A `None` snr returns immediately. -/
def update_snr_stats (node_name : String) (snr : Option ℚ) (m : SnrMap) :
    SnrMap × Bool :=
  match snr with
  | none => (m, false)
  | some s =>
    let m' :=
      match lookupSnr m node_name with
      | none =>
        m ++ [(node_name, { min := s, max := s, avg := s, count := 1, recent := [s] })]
      | some st => setSnr m node_name (stepStats st s)
    match lookupSnr m' node_name with
    | none => (m', false)
    | some st' => (m', st'.count % 10 = 0)

/-- Folding a sequence of recorded (non-null) samples through
`update_snr_stats`, starting from a given table. -/
def foldSnr (l : List (String × ℚ)) (m : SnrMap) : SnrMap :=
  l.foldl (fun acc e => (update_snr_stats e.1 (some e.2) acc).1) m

/-- The subsequence of sample values recorded for one node, in arrival
order. -/
def samplesFor (node_name : String) (l : List (String × ℚ)) : List ℚ :=
  (l.filter (fun e => e.1 = node_name)).map (fun e => e.2)

/-- The last `n` elements of a list, in order. -/
def lastN (n : Nat) (l : List ℚ) : List ℚ :=
  l.drop (l.length - n)

/-- The target-resolution logic at the top of `send_meshtastic_message`:
`NODES` in configured order, the connected device's node id
(`my_node_id`, `None` when unknown, falsy when 0), and the operator
selection `(SELECTED_NODE_NAME, TARGET_NODE_INT)`. When `my_node_id`
is truthy and among the configured ids, the first matching name is
looked up and the targets are all other configured nodes; otherwise
the single selected node. -/
def target_nodes (nodes : List (String × Nat)) (myId : Option Nat)
    (selName : String) (selId : Nat) : List (String × Nat) :=
  match myId with
  | some m =>
    if m ≠ 0 ∧ m ∈ nodes.map Prod.snd then
      match nodes.find? (fun e => e.2 = m) with
      | some _ => nodes.filter (fun e => e.2 ≠ m)
      | none => [(selName, selId)]
    else [(selName, selId)]
  | none => [(selName, selId)]

/-- Modelled from the spec: `resolveTargets` per §4.3 — if the local
identity is non-empty (truthy) and is a configured peer, the targets
are all other configured peers in configured order; otherwise the
single operator-selected target peer. Written from the spec's words,
to be compared with `target_nodes`. -/
def resolveTargetsSpec (nodes : List (String × Nat)) (myId : Option Nat)
    (selName : String) (selId : Nat) : List (String × Nat) :=
  match myId with
  | some m =>
    if m ≠ 0 ∧ m ∈ nodes.map Prod.snd then nodes.filter (fun e => e.2 ≠ m)
    else [(selName, selId)]
  | none => [(selName, selId)]

/-- The acked/nacked/pending lists computed after the post-send wait
(a `DeliveryOutcome` without the counters). -/
structure Outcome where
  acked : List String
  nacked : List String
  pending : List String
deriving DecidableEq

/-- The classification loop at the end of `send_meshtastic_message`:
for each `(msg_id, node_name)` of the batch, status `ack` goes to
`acked`, `nak` to `nacked`, and anything else (`impl_ack`, `pending`,
`unknown`) to `pending`. -/
def classify_send (ids : List (Nat × String)) (tr : Tracker) : Outcome :=
  { acked := (ids.filter (fun x => get_status tr x.1 = Status.ack)).map (fun x => x.2)
    nacked := (ids.filter (fun x => get_status tr x.1 = Status.nak)).map (fun x => x.2)
    pending := (ids.filter (fun x =>
      get_status tr x.1 ≠ Status.ack ∧ get_status tr x.1 ≠ Status.nak)).map (fun x => x.2) }

/-- The classification loop in `run_weather_station` (both the natural
tick's and the retry's): status `ack` goes to `acked`, `nak` to
`nacked`, `pending` to `pending`; `impl_ack` and `unknown` appear in
none of the lists. -/
def classify_tick (ids : List (Nat × String)) (tr : Tracker) : Outcome :=
  { acked := (ids.filter (fun x => get_status tr x.1 = Status.ack)).map (fun x => x.2)
    nacked := (ids.filter (fun x => get_status tr x.1 = Status.nak)).map (fun x => x.2)
    pending := (ids.filter (fun x => get_status tr x.1 = Status.pending)).map (fun x => x.2) }

/-- The retry bookkeeping of the main loop: `pending_retry_time`,
`pending_message`, `pending_recipients`. -/
structure RetryState where
  retryTime : Option ℚ
  retryMsg : Option String
  recipients : List String
deriving DecidableEq

/-- The retry block at the top of each main-loop iteration
(`if WANT_ACK and pending_retry_time and current_time >= ...`). The
resend itself is transport I/O, so its result is a parameter: `sent`
and `msgIds` stand for `result['sent']` and `result['message_ids']`,
`tr` for the tracker state when the post-wait classification runs,
and `tAfterWait` for `time.time()` at that moment. When peers are
still pending after the retry's wait, the timer is re-armed at
`tAfterWait + retryTimeout` with the same message. -/
def retry_check (wantAck : Bool) (now : ℚ) (connected : Bool)
    (st : RetryState) (sent : Nat) (msgIds : List (Nat × String))
    (tr : Tracker) (tAfterWait retryTimeout : ℚ) : RetryState :=
  match st.retryTime with
  | none => st
  | some t =>
    if wantAck ∧ t ≤ now then
      match st.retryMsg with
      | none => { retryTime := none, retryMsg := none, recipients := [] }
      | some m =>
        if connected ∧ m ≠ "" ∧ 0 < sent then
          let o := classify_tick msgIds tr
          if o.pending ≠ [] then
            { retryTime := some (tAfterWait + retryTimeout)
              retryMsg := some m
              recipients := o.pending }
          else { retryTime := none, retryMsg := none, recipients := [] }
        else { retryTime := none, retryMsg := none, recipients := [] }
    else st

theorem lookupId_cons (a : Nat) (b : MsgInfo) (rest : Tracker) (id : Nat) :
    lookupId ((a, b) :: rest) id = if a = id then some b else lookupId rest id := rfl

theorem lookupId_append (tr : Tracker) (k id : Nat) (v : MsgInfo) :
    lookupId (tr ++ [(k, v)]) id =
      match lookupId tr id with
      | some w => some w
      | none => if k = id then some v else none := by
  induction tr with
  | nil => rfl
  | cons e rest ih =>
    obtain ⟨a, b⟩ := e
    by_cases he : a = id
    · simp [lookupId_cons, he]
    · simpa [lookupId_cons, he] using ih

theorem lookupId_replace_ne (tr : Tracker) (k id : Nat) (v : MsgInfo) (h : id ≠ k) :
    lookupId (tr.map (fun e => if e.1 = k then (k, v) else e)) id = lookupId tr id := by
  induction tr with
  | nil => rfl
  | cons e rest ih =>
    obtain ⟨a, b⟩ := e
    by_cases ha : a = k
    · simp [lookupId_cons, ha, Ne.symm h, ih]
    · simp [lookupId_cons, ha, ih]

theorem lookupId_replace_self (tr : Tracker) (k : Nat) (v w : MsgInfo)
    (h : lookupId tr k = some w) :
    lookupId (tr.map (fun e => if e.1 = k then (k, v) else e)) k = some v := by
  induction tr with
  | nil => simp [lookupId] at h
  | cons e rest ih =>
    obtain ⟨a, b⟩ := e
    by_cases ha : a = k
    · simp [lookupId_cons, ha]
    · simp only [lookupId_cons, ha, if_false] at h
      simp [lookupId_cons, ha, ih h]

theorem lookupId_dictSet_self (tr : Tracker) (k : Nat) (v : MsgInfo) :
    lookupId (dictSet tr k v) k = some v := by
  unfold dictSet
  rcases h : lookupId tr k with _ | w
  · simp [h, lookupId_append]
  · simp only [h, Option.isSome_some, if_true]
    exact lookupId_replace_self tr k v w h

theorem lookupId_dictSet_ne (tr : Tracker) (k id : Nat) (v : MsgInfo) (h : id ≠ k) :
    lookupId (dictSet tr k v) id = lookupId tr id := by
  unfold dictSet
  by_cases hs : (lookupId tr k).isSome
  · simp [hs, lookupId_replace_ne tr k id v h]
  · rw [if_neg hs, lookupId_append]
    rcases hh : lookupId tr id with _ | w <;> simp [Ne.symm h]

theorem register_lookup (tr : Tracker) (id : Nat) (name : String) (snr : Option ℚ) (t : ℚ) :
    lookupId (register_message id name snr t tr) id =
      some ⟨name, false, false, false, t, snr⟩ := by
  unfold register_message
  exact lookupId_dictSet_self ..

theorem on_ack_nak_tracked (localNum : Option Nat) (p : Packet) (tr : Tracker)
    (info : MsgInfo) (r : Nat) (hid : effectiveId p = some r) (hr : r ≠ 0)
    (hl : lookupId tr r = some info) :
    on_ack_nak localNum p tr =
      dictSet tr r
        (if p.errorReason ≠ "NONE" then { info with nak_received := true }
         else if p.fromNode = localNum then { info with impl_ack_received := true }
         else { info with ack_received := true }) := by
  unfold on_ack_nak
  rw [hid]
  simp [hr, hl]

/-- Claim C10: recording a `None` signal value is a no-op — the
statistics table is returned unchanged for every peer and no
persistence write is triggered. -/
theorem update_snr_none_noop (node_name : String) (m : SnrMap) :
    update_snr_stats node_name none m = (m, false) := rfl

/-- Claim C6: fan-out target resolution — when the local identity is
truthy and among the configured node ids, the targets are all other
configured nodes in configured order, otherwise the single selected
node; `target_nodes` (translated from the source) agrees with the
spec-side `resolveTargetsSpec` everywhere, and on the spec's worked
example peers A:1, B:2, C:3 with self-identity B the targets are
A and C, while an unresolved identity yields only the selected C. -/
theorem fanout_matches_spec (nodes : List (String × Nat)) (myId : Option Nat)
    (selName : String) (selId : Nat) :
    target_nodes nodes myId selName selId = resolveTargetsSpec nodes myId selName selId ∧
    target_nodes [("A", 1), ("B", 2), ("C", 3)] (some 2) "C" 3 = [("A", 1), ("C", 3)] ∧
    target_nodes [("A", 1), ("B", 2), ("C", 3)] none "C" 3 = [("C", 3)] := by
  refine ⟨?_, ?_, ?_⟩
  · rcases myId with _ | m
    · rfl
    · by_cases hc : m ≠ 0 ∧ m ∈ nodes.map Prod.snd
      · simp only [target_nodes, resolveTargetsSpec]
        rw [if_pos hc, if_pos hc]
        rcases hf : nodes.find? (fun e => e.2 = m) with _ | e
        · exfalso
          obtain ⟨-, hmem⟩ := hc
          rw [List.find?_eq_none] at hf
          obtain ⟨x, hx, hx2⟩ := List.mem_map.mp hmem
          have hfx := hf x hx
          simp only [decide_eq_true_eq] at hfx
          exact hfx hx2
        · simp [hf]
      · simp only [target_nodes, resolveTargetsSpec]
        rw [if_neg hc, if_neg hc]
  · decide
  · decide

/-- Claim C9: an event whose effective id is absent or untracked leaves
the pending table exactly as it was (no entry created, none changed),
and a status query for the event's id returns `unknown`. -/
theorem untracked_event_ignored (localNum : Option Nat) (p : Packet) (tr : Tracker)
    (h : ∀ r, effectiveId p = some r → lookupId tr r = none) :
    on_ack_nak localNum p tr = tr ∧
      ∀ r, effectiveId p = some r →
        get_status (on_ack_nak localNum p tr) r = Status.unknown := by
  have h1 : on_ack_nak localNum p tr = tr := by
    unfold on_ack_nak
    rcases heff : effectiveId p with _ | r
    · rfl
    · by_cases hr : r = 0
      · simp [hr]
      · simp [hr, h r heff]
  refine ⟨h1, ?_⟩
  intro r hr
  rw [h1]
  unfold get_status
  rw [h r hr]

/-- Witness for C9: a tracker holding only message 1 receives an event
for the untracked id 3; the table is unchanged and id 3 reports
`unknown`. -/
theorem untracked_event_ignored_witness :
    on_ack_nak (some 9)
        { requestId := some 3, packetId := none, errorReason := "NONE", fromNode := some 7 }
        (register_message 1 "A" none 0 []) =
      register_message 1 "A" none 0 [] ∧
    get_status
        (on_ack_nak (some 9)
          { requestId := some 3, packetId := none, errorReason := "NONE", fromNode := some 7 }
          (register_message 1 "A" none 0 [])) 3 = Status.unknown := by
  have h := untracked_event_ignored (some 9)
    { requestId := some 3, packetId := none, errorReason := "NONE", fromNode := some 7 }
    (register_message 1 "A" none 0 [])
    (by
      intro r hr
      have hr3 : r = 3 := by simpa [effectiveId] using hr.symm
      subst hr3
      decide)
  exact ⟨h.1, h.2 3 rfl⟩

/-- Counterexample to C2 as stated: message 1 first receives a NAK
(terminal state `nak`), then a conflicting duplicate event with no
error arrives from a non-local node; `on_ack_nak` sets `ack_received`
without checking for an existing terminal flag, and `get_status`
prioritizes `ack`, so the observed state changes from `nak` to `ack`
after a terminal state was reached. -/
theorem terminal_state_not_stable :
    get_status
        (on_ack_nak (some 9)
          { requestId := some 1, packetId := none, errorReason := "MAX_RETRANSMIT",
            fromNode := some 5 }
          (register_message 1 "A" none 0 [])) 1 = Status.nak ∧
    get_status
        (on_ack_nak (some 9)
          { requestId := some 1, packetId := none, errorReason := "NONE", fromNode := some 7 }
          (on_ack_nak (some 9)
            { requestId := some 1, packetId := none, errorReason := "MAX_RETRANSMIT",
              fromNode := some 5 }
            (register_message 1 "A" none 0 []))) 1 = Status.ack ∧
    Status.nak ≠ Status.ack := by
  decide

/-- Claim C2 (amended): `on_ack_nak` never clears a flag, so the
`Acked` state, which `get_status` reports with highest priority, is
stable — once a message's status is `ack`, no further event changes
it. The other terminal states are not stable: a conflicting duplicate
event can move the observed status from `nak` or `impl_ack` to a
higher-priority one. -/
theorem ack_status_stable (localNum : Option Nat) (p : Packet) (tr : Tracker) (id : Nat)
    (h : get_status tr id = Status.ack) :
    get_status (on_ack_nak localNum p tr) id = Status.ack := by
  have hinfo : ∃ info, lookupId tr id = some info ∧ info.ack_received = true := by
    unfold get_status at h
    rcases hl : lookupId tr id with _ | info
    · rw [hl] at h
      simp at h
    · rw [hl] at h
      by_cases ha : info.ack_received
      · exact ⟨info, rfl, ha⟩
      · exfalso
        simp only [ha, if_false] at h
        split_ifs at h <;> simp_all
  obtain ⟨info, hl, hack⟩ := hinfo
  rcases heff : effectiveId p with _ | r
  · simp [on_ack_nak, heff, get_status, hl, hack]
  · by_cases hr : r = 0
    · simp [on_ack_nak, heff, hr, get_status, hl, hack]
    · rcases hlr : lookupId tr r with _ | info2
      · simp [on_ack_nak, heff, hr, hlr, get_status, hl, hack]
      · by_cases hir : id = r
        · subst hir
          rw [hl] at hlr
          injection hlr with he
          subst he
          simp only [on_ack_nak, heff, hr, if_false, hl]
          simp only [get_status, lookupId_dictSet_self]
          split_ifs <;> simp_all
        · simp only [on_ack_nak, heff, hr, if_false, hlr]
          simp only [get_status]
          rw [lookupId_dictSet_ne _ _ _ _ hir, hl]
          simp [hack]

/-- Witness for the amended C2: a tracker whose message 1 is already
`ack` keeps status `ack` after a further NAK event for id 1. -/
theorem ack_status_stable_witness :
    get_status
        (on_ack_nak (some 9)
          { requestId := some 1, packetId := none, errorReason := "TIMEOUT", fromNode := some 5 }
          [(1, ⟨"A", true, false, false, 0, none⟩)]) 1 = Status.ack := by
  exact ack_status_stable (some 9)
    { requestId := some 1, packetId := none, errorReason := "TIMEOUT", fromNode := some 5 }
    [(1, ⟨"A", true, false, false, 0, none⟩)] 1 (by decide)

/-- Counterexample to C3 as stated: message id 0 is registered and a
matching event with an error reason arrives, but `on_ack_nak` treats
a zero request id as falsy (`if not request_id`), falls back to the
event packet's own id (absent here) and ignores the event, so the
status stays `pending` instead of becoming `nak`. -/
theorem zero_id_event_dropped :
    get_status
        (on_ack_nak (some 9)
          { requestId := some 0, packetId := none, errorReason := "MAX_RETRANSMIT",
            fromNode := some 5 }
          (register_message 0 "A" none 0 [])) 0 = Status.pending ∧
    Status.pending ≠ Status.nak := by
  decide

/-- Claim C3 (amended): for every registered nonzero message id, a
matching event carrying `(id, originatingAddress, errorReason)`
deterministically yields `nak` when the error reason is present
(not the string NONE), `impl_ack` when the originating address equals
the local node's own address, and `ack` otherwise. -/
theorem classification_deterministic (tr : Tracker) (localNum fromNode pid : Option Nat)
    (id : Nat) (name : String) (snr : Option ℚ) (t : ℚ) (err : String) (hid : id ≠ 0) :
    get_status
        (on_ack_nak localNum
          { requestId := some id, packetId := pid, errorReason := err, fromNode := fromNode }
          (register_message id name snr t tr)) id =
      (if err ≠ "NONE" then Status.nak
       else if fromNode = localNum then Status.implAck
       else Status.ack) := by
  have h1 : lookupId (register_message id name snr t tr) id =
      some ⟨name, false, false, false, t, snr⟩ := register_lookup ..
  have h2 : effectiveId
      { requestId := some id, packetId := pid, errorReason := err, fromNode := fromNode } =
      some id := by
    simp [effectiveId, hid]
  rw [on_ack_nak_tracked _ _ _ _ _ h2 hid h1]
  by_cases herr : err = "NONE"
  · by_cases hfrom : fromNode = localNum
    · simp [get_status, lookupId_dictSet_self, herr, hfrom]
    · simp [get_status, lookupId_dictSet_self, herr, hfrom]
  · simp [get_status, lookupId_dictSet_self, herr]

/-- Witness for the amended C3: the nonzero id 5 is registered for
peer B; an error-free event from node 7 (local node is 9) makes its
status `ack`. -/
theorem classification_deterministic_witness :
    (5 : Nat) ≠ 0 ∧
    get_status
        (on_ack_nak (some 9)
          { requestId := some 5, packetId := none, errorReason := "NONE", fromNode := some 7 }
          (register_message 5 "B" none 0 [])) 5 = Status.ack := by
  constructor
  · decide
  · have h := classification_deterministic [] (some 9) (some 7) none 5 "B" none 0 "NONE"
      (by decide)
    simpa using h

/-- Counterexample to C5 as stated: an entry whose state is `ack` (not
`Pending`) and whose age exceeds the timeout is removed by
`cleanup_old`, which filters on age alone, while the claim says
entries in other states are left untouched. -/
theorem sweep_removes_terminal_entry :
    cleanup_old 60 100 [(1, ⟨"A", true, false, false, 0, none⟩)] = [] ∧
    get_status [(1, ⟨"A", true, false, false, 0, none⟩)] 1 = Status.ack := by
  constructor
  · norm_num [cleanup_old]
  · decide

/-- Claim C5 (amended): `cleanup_old(maxAge)` removes exactly the
entries with `now - createdAt > maxAge` regardless of their state, and
leaves every younger entry untouched; entries in terminal states older
than `maxAge` are removed too. -/
theorem sweep_age_filter (timeout now : ℚ) (tr : Tracker)
    (h : (tr.map Prod.fst).Nodup) :
    cleanup_old timeout now tr = tr.filter (fun e => now - e.2.timestamp ≤ timeout) := by
  unfold cleanup_old
  apply List.filter_congr
  intro x hx
  simp only [decide_eq_decide]
  constructor
  · intro hnot
    by_contra hage
    push_neg at hage
    exact hnot (List.mem_map.mpr ⟨x, List.mem_filter.mpr ⟨hx, by simpa using hage⟩, rfl⟩)
  · intro hle hmem
    obtain ⟨y, hy, hyx⟩ := List.mem_map.mp hmem
    obtain ⟨hyt, hage⟩ := List.mem_filter.mp hy
    have hxy : y = x := List.inj_on_of_nodup_map h hyt hx hyx
    subst hxy
    simp only [decide_eq_true_eq] at hage
    exact absurd hle (not_le.mpr hage)

/-- Witness for the amended C5: a table with an old acked entry and a
fresh pending entry is swept to exactly its young-enough part. -/
theorem sweep_age_filter_witness :
    (([((1 : Nat), (⟨"A", true, false, false, 0, none⟩ : MsgInfo)),
        (2, ⟨"B", false, false, false, 90, none⟩)].map Prod.fst).Nodup) ∧
    cleanup_old 60 100
        [(1, ⟨"A", true, false, false, 0, none⟩), (2, ⟨"B", false, false, false, 90, none⟩)] =
      [(1, (⟨"A", true, false, false, 0, none⟩ : MsgInfo)),
        (2, ⟨"B", false, false, false, 90, none⟩)].filter
        (fun e => 100 - e.2.timestamp ≤ 60) := by
  refine ⟨by decide, ?_⟩
  exact sweep_age_filter 60 100 _ (by decide)

theorem mem_acked_aux (ids : List (Nat × String)) (tr : Tracker) (name : String)
    (hin : name ∈ (ids.filter (fun x => get_status tr x.1 = Status.ack)).map (fun x => x.2)) :
    ∃ x, x ∈ ids ∧ get_status tr x.1 = Status.ack ∧ x.2 = name := by
  obtain ⟨x, hx, hxe⟩ := List.mem_map.mp hin
  obtain ⟨hxi, hxs⟩ := List.mem_filter.mp hx
  exact ⟨x, hxi, by simpa using hxs, hxe⟩

/-- Claim C4: a message whose status is `impl_ack` never contributes
its peer to the `acked` list of either batch classification (the one
in `send_meshtastic_message` and the one in `run_weather_station`),
provided the batch targets pairwise-distinct peers. -/
theorem implicit_ack_never_acked (tr : Tracker) (ids : List (Nat × String)) (id : Nat)
    (name : String) (hmem : (id, name) ∈ ids)
    (himpl : get_status tr id = Status.implAck)
    (hnd : (ids.map Prod.snd).Nodup) :
    name ∉ (classify_send ids tr).acked ∧ name ∉ (classify_tick ids tr).acked := by
  have key : name ∉ (ids.filter (fun x => get_status tr x.1 = Status.ack)).map
      (fun x => x.2) := by
    intro hin
    obtain ⟨x, hx, hst, hxn⟩ := mem_acked_aux ids tr name hin
    have hxeq : x = (id, name) :=
      List.inj_on_of_nodup_map hnd hx hmem (by simpa using hxn)
    rw [hxeq] at hst
    have hack : get_status tr id = Status.ack := hst
    rw [himpl] at hack
    exact absurd hack (by decide)
  exact ⟨key, key⟩

/-- Witness for C4: message 1 to peer A is `impl_ack`, message 2 to
peer B is `ack`; A appears in neither classification's acked list. -/
theorem implicit_ack_never_acked_witness :
    get_status
        [(1, ⟨"A", false, false, true, 0, none⟩), (2, ⟨"B", true, false, false, 0, none⟩)] 1 =
      Status.implAck ∧
    "A" ∉ (classify_send [(1, "A"), (2, "B")]
        [(1, ⟨"A", false, false, true, 0, none⟩), (2, ⟨"B", true, false, false, 0, none⟩)]).acked ∧
    "A" ∉ (classify_tick [(1, "A"), (2, "B")]
        [(1, ⟨"A", false, false, true, 0, none⟩), (2, ⟨"B", true, false, false, 0, none⟩)]).acked := by
  have h := implicit_ack_never_acked
    [(1, ⟨"A", false, false, true, 0, none⟩), (2, ⟨"B", true, false, false, 0, none⟩)]
    [(1, "A"), (2, "B")] 1 "A" (by decide) (by decide) (by decide)
  exact ⟨by decide, h.1, h.2⟩

/-- Counterexample to C1 as stated: a retry fires for message "m" to
peer A, the peer is still pending after the retry's post-send wait,
and the retry block re-arms the timer (`pending_retry_time =
time.time() + ACK_RETRY_TIMEOUT`) with the same message — a further
retry of the same logical message is scheduled before any next
sensing-tick batch, contradicting "retried exactly once". -/
theorem retry_rearms_again :
    retry_check true 100 true
        { retryTime := some 50, retryMsg := some "m", recipients := ["A"] }
        1 [(7, "A")] (register_message 7 "A" none 0 []) 105 60 =
      { retryTime := some 165, retryMsg := some "m", recipients := ["A"] } := by
  norm_num [retry_check, classify_tick, get_status, register_message, dictSet, lookupId]
  decide

/-- Claim C1 (amended): when the retry timer fires (ack mode on, timer
due, link up, nonempty message, at least one resend queued), the
post-wait classification decides what happens next — if no peer is
still pending the retry state is cleared, but if any peer is still
pending the same logical message is re-scheduled for another retry at
`tAfterWait + retryTimeout`; retries repeat until the batch resolves
or a new batch overwrites the retry state, rather than stopping after
a single retry. -/
theorem retry_rearm_behavior (wantAck connected : Bool)
    (now t tAfterWait retryTimeout : ℚ) (st : RetryState) (sent : Nat)
    (msgIds : List (Nat × String)) (tr : Tracker) (m : String)
    (ht : st.retryTime = some t) (hw : wantAck = true) (hnow : t ≤ now)
    (hm : st.retryMsg = some m) (hc : connected = true) (hne : m ≠ "") (hs : 0 < sent) :
    retry_check wantAck now connected st sent msgIds tr tAfterWait retryTimeout =
      (if (classify_tick msgIds tr).pending = [] then
        { retryTime := none, retryMsg := none, recipients := [] }
      else
        { retryTime := some (tAfterWait + retryTimeout), retryMsg := some m,
          recipients := (classify_tick msgIds tr).pending }) := by
  subst hw hc
  by_cases hp : (classify_tick msgIds tr).pending = [] <;>
    simp [retry_check, ht, hm, hnow, hne, hs, hp]

/-- Witness for the amended C1: the concrete retry of the
counterexample input, shown equal to the re-arm branch. -/
theorem retry_rearm_behavior_witness :
    ((50 : ℚ) ≤ 100) ∧ ("m" ≠ "") ∧ ((0 : Nat) < 1) ∧
    retry_check true 100 true
        { retryTime := some 50, retryMsg := some "m", recipients := ["A"] }
        1 [(7, "A")] [(7, ⟨"A", false, false, false, 0, none⟩)] 105 60 =
      (if (classify_tick [(7, "A")] [(7, ⟨"A", false, false, false, 0, none⟩)]).pending = [] then
        { retryTime := none, retryMsg := none, recipients := [] }
      else
        { retryTime := some (105 + 60), retryMsg := some "m",
          recipients :=
            (classify_tick [(7, "A")] [(7, ⟨"A", false, false, false, 0, none⟩)]).pending }) := by
  refine ⟨by norm_num, by decide, by decide, ?_⟩
  exact retry_rearm_behavior true true 100 50 105 60
    { retryTime := some 50, retryMsg := some "m", recipients := ["A"] } 1 [(7, "A")]
    [(7, ⟨"A", false, false, false, 0, none⟩)] "m" rfl rfl (by norm_num) rfl rfl
    (by decide) (by decide)

theorem lookupSnr_cons (a : String) (b : SnrStats) (rest : SnrMap) (p : String) :
    lookupSnr ((a, b) :: rest) p = if a = p then some b else lookupSnr rest p := rfl

theorem lookupSnr_append (m : SnrMap) (q p : String) (v : SnrStats) :
    lookupSnr (m ++ [(q, v)]) p =
      match lookupSnr m p with
      | some w => some w
      | none => if q = p then some v else none := by
  induction m with
  | nil => rfl
  | cons e rest ih =>
    obtain ⟨a, b⟩ := e
    by_cases he : a = p
    · simp [lookupSnr_cons, he]
    · simpa [lookupSnr_cons, he] using ih

theorem lookupSnr_set_ne (m : SnrMap) (q p : String) (v : SnrStats) (h : p ≠ q) :
    lookupSnr (setSnr m q v) p = lookupSnr m p := by
  induction m with
  | nil => rfl
  | cons e rest ih =>
    obtain ⟨a, b⟩ := e
    by_cases ha : a = q
    · simp [setSnr, lookupSnr_cons, ha, Ne.symm h] at ih ⊢
      exact ih
    · simp [setSnr, lookupSnr_cons, ha] at ih ⊢
      rw [ih]

theorem lookupSnr_set_self (m : SnrMap) (q : String) (v w : SnrStats)
    (h : lookupSnr m q = some w) :
    lookupSnr (setSnr m q v) q = some v := by
  induction m with
  | nil => simp [lookupSnr] at h
  | cons e rest ih =>
    obtain ⟨a, b⟩ := e
    by_cases ha : a = q
    · simp [setSnr, lookupSnr_cons, ha]
    · simp only [lookupSnr_cons, ha, if_false] at h
      simp [setSnr, lookupSnr_cons, ha] at ih ⊢
      exact ih h

theorem update_snr_fst (q : String) (s : ℚ) (m : SnrMap) :
    (update_snr_stats q (some s) m).1 =
      match lookupSnr m q with
      | none => m ++ [(q, { min := s, max := s, avg := s, count := 1, recent := [s] })]
      | some st => setSnr m q (stepStats st s) := by
  unfold update_snr_stats
  rcases h : lookupSnr m q with _ | st
  · simp only [h]
    rcases h2 : lookupSnr
        (m ++ [(q, { min := s, max := s, avg := s, count := 1, recent := [s] })]) q with _ | w
    · simp [h2]
    · simp [h2]
  · simp only [h]
    rcases h2 : lookupSnr (setSnr m q (stepStats st s)) q with _ | w
    · simp [h2]
    · simp [h2]

theorem samplesFor_append (p q : String) (s : ℚ) (l : List (String × ℚ)) :
    samplesFor p (l ++ [(q, s)]) =
      if q = p then samplesFor p l ++ [s] else samplesFor p l := by
  unfold samplesFor
  rw [List.filter_append]
  by_cases h : q = p <;> simp [h]

theorem lastN_length (n : Nat) (l : List ℚ) :
    (lastN n l).length = min l.length n := by
  simp only [lastN, List.length_drop]
  rcases Nat.le_total l.length n with h | h
  · rw [min_eq_left h]
    omega
  · rw [min_eq_right h]
    omega

theorem lastN_step (ss : List ℚ) (s : ℚ) :
    (if 100 < (lastN 100 ss ++ [s]).length then (lastN 100 ss ++ [s]).tail
     else lastN 100 ss ++ [s]) = lastN 100 (ss ++ [s]) := by
  have hlen : (lastN 100 ss).length = min ss.length 100 := lastN_length ..
  by_cases h : ss.length < 100
  · have hmin : min ss.length 100 = ss.length := min_eq_left (le_of_lt h)
    have hc : ¬ 100 < (lastN 100 ss ++ [s]).length := by
      simp only [List.length_append, hlen, hmin, List.length_cons, List.length_nil]
      omega
    rw [if_neg hc]
    unfold lastN
    have h1 : ss.length - 100 = 0 := by omega
    have h2 : (ss ++ [s]).length - 100 = 0 := by
      simp only [List.length_append, List.length_cons, List.length_nil]
      omega
    rw [h1, h2, List.drop_zero, List.drop_zero]
  · have hmin : min ss.length 100 = 100 := min_eq_right (le_of_not_lt h)
    have hc : 100 < (lastN 100 ss ++ [s]).length := by
      simp only [List.length_append, hlen, hmin, List.length_cons, List.length_nil]
      omega
    rw [if_pos hc]
    unfold lastN
    rw [← List.drop_one, List.drop_append_eq_append_drop, List.drop_drop,
      List.drop_append_eq_append_drop]
    have h1 : 1 - (List.drop (ss.length - 100) ss).length = 0 := by
      rw [List.length_drop]
      omega
    have h2 : (ss ++ [s]).length - 100 - ss.length = 0 := by
      simp only [List.length_append, List.length_cons, List.length_nil]
      omega
    have h3 : ss.length - 100 + 1 = (ss ++ [s]).length - 100 := by
      simp only [List.length_append, List.length_cons, List.length_nil]
      omega
    rw [h1, h2, h3]

theorem stepStats_bounds (st : SnrStats) (s : ℚ) (h1 : st.min ≤ st.avg)
    (h2 : st.avg ≤ st.max) (hc : 1 ≤ st.count) :
    (stepStats st s).min ≤ (stepStats st s).avg ∧
      (stepStats st s).avg ≤ (stepStats st s).max := by
  have hn : (0 : ℚ) < (st.count : ℚ) + 1 := by positivity
  have hnn : (0 : ℚ) ≤ (st.count : ℚ) := by positivity
  constructor
  · show Min.min st.min s ≤ (st.avg * st.count + s) / (st.count + 1)
    rw [le_div_iff₀ hn]
    have ha : Min.min st.min s ≤ st.avg := le_trans (min_le_left _ _) h1
    have hb : Min.min st.min s ≤ s := min_le_right _ _
    nlinarith [mul_le_mul_of_nonneg_right ha hnn]
  · show (st.avg * st.count + s) / (st.count + 1) ≤ Max.max st.max s
    rw [div_le_iff₀ hn]
    have ha : st.avg ≤ Max.max st.max s := le_trans h2 (le_max_left _ _)
    have hb : s ≤ Max.max st.max s := le_max_right _ _
    nlinarith [mul_le_mul_of_nonneg_right ha hnn]

/-- The reachable-state invariant of the SNR statistics table: each
tracked node's record was built from its recorded samples — the count
is the number of samples, the recent window is the last 100 of them,
and the running average sits between the min and the max. -/
def Tracks (m : SnrMap) (l : List (String × ℚ)) : Prop :=
  ∀ p, (lookupSnr m p = none → samplesFor p l = []) ∧
    (∀ st, lookupSnr m p = some st →
      samplesFor p l ≠ [] ∧ st.count = (samplesFor p l).length ∧
      st.recent = lastN 100 (samplesFor p l) ∧
      st.min ≤ st.avg ∧ st.avg ≤ st.max)

theorem tracks_nil : Tracks [] [] := by
  intro p
  constructor
  · intro _
    rfl
  · intro st hst
    simp [lookupSnr] at hst

theorem tracks_step (m : SnrMap) (l : List (String × ℚ)) (h : Tracks m l)
    (q : String) (s : ℚ) :
    Tracks (update_snr_stats q (some s) m).1 (l ++ [(q, s)]) := by
  rw [update_snr_fst]
  intro p
  rcases hlq : lookupSnr m q with _ | st
  · -- first sample for q: a fresh record is appended
    simp only [hlq]
    by_cases hpq : q = p
    · subst hpq
      have hq0 : samplesFor q l = [] := (h q).1 hlq
      constructor
      · intro hnone
        rw [lookupSnr_append, hlq] at hnone
        simp at hnone
      · intro st' hst'
        rw [lookupSnr_append, hlq] at hst'
        simp only [if_pos rfl] at hst'
        injection hst' with he
        subst he
        rw [samplesFor_append, if_pos rfl, hq0]
        refine ⟨by simp, by simp, by simp [lastN], le_refl s, le_refl s⟩
    · rw [samplesFor_append, if_neg hpq]
      constructor
      · intro hnone
        rw [lookupSnr_append] at hnone
        rcases hmp : lookupSnr m p with _ | w
        · exact (h p).1 hmp
        · rw [hmp] at hnone
          simp at hnone
      · intro st' hst'
        rw [lookupSnr_append] at hst'
        rcases hmp : lookupSnr m p with _ | w
        · rw [hmp] at hst'
          simp [hpq] at hst'
        · rw [hmp] at hst'
          simp only at hst'
          injection hst' with he
          rw [he] at hmp
          exact (h p).2 st' hmp
  · -- subsequent sample for q: the record is updated in place
    simp only [hlq]
    by_cases hpq : p = q
    · subst hpq
      have hq := (h p).2 st hlq
      obtain ⟨hne, hcount, hrecent, hmin, hmax⟩ := hq
      constructor
      · intro hnone
        rw [lookupSnr_set_self m p (stepStats st s) st hlq] at hnone
        simp at hnone
      · intro st' hst'
        rw [lookupSnr_set_self m p (stepStats st s) st hlq] at hst'
        injection hst' with he
        subst he
        rw [samplesFor_append, if_pos rfl]
        have hc1 : 1 ≤ st.count := by
          rw [hcount]
          exact List.length_pos.mpr hne
        refine ⟨by simp, ?_, ?_, stepStats_bounds st s hmin hmax hc1⟩
        · show st.count + 1 = (samplesFor p l ++ [s]).length
          simp [hcount]
        · show (if 100 < (st.recent ++ [s]).length then (st.recent ++ [s]).tail
              else st.recent ++ [s]) = lastN 100 (samplesFor p l ++ [s])
          rw [hrecent, lastN_step]
    · rw [samplesFor_append, if_neg (fun he => hpq he.symm)]
      rw [lookupSnr_set_ne m q p (stepStats st s) hpq]
      exact h p

theorem tracks_fold (l : List (String × ℚ)) : Tracks (foldSnr l []) l := by
  induction l using List.reverseRecOn with
  | nil => exact tracks_nil
  | append_singleton l' e ih =>
    obtain ⟨q, s⟩ := e
    have hf : foldSnr (l' ++ [(q, s)]) [] =
        (update_snr_stats q (some s) (foldSnr l' [])).1 := by
      unfold foldSnr
      rw [List.foldl_append]
      rfl
    rw [hf]
    exact tracks_step _ _ ih q s

/-- Claim C7: for every peer, after any sequence of recorded non-null
samples the statistics satisfy `min ≤ avg ≤ max`. -/
theorem snr_min_le_avg_le_max (l : List (String × ℚ)) (p : String) (st : SnrStats)
    (h : lookupSnr (foldSnr l []) p = some st) :
    st.min ≤ st.avg ∧ st.avg ≤ st.max := by
  have ht := ((tracks_fold l) p).2 st h
  exact ⟨ht.2.2.2.1, ht.2.2.2.2⟩

/-- Witness for C7: peer A records samples 1, 2, 3 (with an unrelated
sample for B interleaved); its record is min 1, avg 2, max 3 and the
bounds hold. -/
theorem snr_min_le_avg_le_max_witness :
    lookupSnr (foldSnr [("A", 1), ("A", 2), ("B", 5), ("A", 3)] []) "A" =
      some { min := 1, max := 3, avg := 2, count := 3, recent := [1, 2, 3] } ∧
    ((1 : ℚ) ≤ 2 ∧ (2 : ℚ) ≤ 3) := by
  have hl : lookupSnr (foldSnr [("A", 1), ("A", 2), ("B", 5), ("A", 3)] []) "A" =
      some { min := 1, max := 3, avg := 2, count := 3, recent := [1, 2, 3] } := by
    norm_num [foldSnr, update_snr_stats, lookupSnr, setSnr, stepStats, List.foldl]
  exact ⟨hl, snr_min_le_avg_le_max [("A", 1), ("A", 2), ("B", 5), ("A", 3)] "A" _ hl⟩

/-- Claim C8: for every peer, after any sequence of recorded samples
the recent window holds exactly the last `min(n, 100)` of that peer's
`n` samples in arrival order, so its length never exceeds 100. -/
theorem recent_window_last_100 (l : List (String × ℚ)) (p : String) (st : SnrStats)
    (h : lookupSnr (foldSnr l []) p = some st) :
    st.recent = lastN 100 (samplesFor p l) ∧
      st.recent.length = min (samplesFor p l).length 100 := by
  have ht := ((tracks_fold l) p).2 st h
  refine ⟨ht.2.2.1, ?_⟩
  rw [ht.2.2.1, lastN_length]

/-- Witness for C8: after the same four-sample sequence, peer A's
recent window is exactly its three samples in arrival order. -/
theorem recent_window_last_100_witness :
    lookupSnr (foldSnr [("A", 1), ("A", 2), ("B", 5), ("A", 3)] []) "A" =
      some { min := 1, max := 3, avg := 2, count := 3, recent := [1, 2, 3] } ∧
    ([(1 : ℚ), 2, 3] = lastN 100 (samplesFor "A" [("A", 1), ("A", 2), ("B", 5), ("A", 3)]) ∧
      ([(1 : ℚ), 2, 3].length =
        min (samplesFor "A" [("A", 1), ("A", 2), ("B", 5), ("A", 3)]).length 100)) := by
  have hl : lookupSnr (foldSnr [("A", 1), ("A", 2), ("B", 5), ("A", 3)] []) "A" =
      some { min := 1, max := 3, avg := 2, count := 3, recent := [1, 2, 3] } := by
    norm_num [foldSnr, update_snr_stats, lookupSnr, setSnr, stepStats, List.foldl]
  exact ⟨hl, recent_window_last_100 [("A", 1), ("A", 2), ("B", 5), ("A", 3)] "A" _ hl⟩

end Ws4m
